import Mathlib

/-!
# Verification of the geodetic leveling adjustment engine

Shallow embedding of the Python sources of the `geodetic_tool` repository
(`config/models.py`, `config/israel_survey_regulations.py`,
`engine/height_calculator.py`, `engine/loop_detector.py`,
`engine/adjustment_computations.py`, `engine/least_squares.py`).

Conventions of the embedding:
* Python `float` values are modelled as exact rationals (`ℚ`); float
  rounding is outside the model, so every arithmetic identity below is
  exact where the float code is exact up to rounding.
* Python `None`-able floats become `Option ℚ`; Python truthiness of a
  float (`if x:`) becomes `x ≠ 0`.
* Quantities that the code obtains via `math.sqrt` / `np.sqrt` are stored
  as their squares (field names carry the suffix `_sq`); every comparison
  the code performs on such a quantity is the comparison of squares of
  nonnegative numbers, which is equivalent.
* Python exceptions become `Except` error values.
* Python dictionaries become association lists looked up by first match;
  the dictionaries built by the embedded code never hold duplicate keys.
-/

namespace Geo

/-- Error taxonomy from `engine/ADJwarnings.py` plus the plain `ValueError`
raised by the adjusters. -/
inductive AdjError where
  | valueError : String → AdjError
  | singularMatrix : String → AdjError
  | insufficientObservations : String → AdjError
  | weightMatrix : String → AdjError
  deriving DecidableEq, Repr

/-- `config/models.py` `StationSetup`: one instrument station.  Fields kept
are exactly those read or written by the embedded functions. -/
structure StationSetup where
  setup_number : Nat
  from_point : String
  to_point : String
  backsight_reading : ℚ
  foresight_reading : ℚ
  distance_back : ℚ
  distance_fore : ℚ
  height_diff : Option ℚ
  cumulative_height : Option ℚ
  is_used : Bool
  deriving DecidableEq, Repr

/-- `StationSetup.__post_init__`: construct a setup, deriving
`height_diff = Rb - Rf` only when `height_diff` was not provided and both
readings are truthy (nonzero) floats. -/
def mkStationSetup (n : Nat) (fp tp : String) (bs fs db df : ℚ)
    (hd cum : Option ℚ) (used : Bool) : StationSetup :=
  { setup_number := n, from_point := fp, to_point := tp
    backsight_reading := bs, foresight_reading := fs
    distance_back := db, distance_fore := df
    height_diff := if hd = none ∧ bs ≠ 0 ∧ fs ≠ 0 then some (bs - fs) else hd
    cumulative_height := cum, is_used := used }

/-- `config/models.py` `LevelingLine` (fields used by the engine). -/
structure LevelingLine where
  filename : String
  start_point : String
  end_point : String
  setups : List StationSetup
  method : String
  total_distance : ℚ
  total_height_diff : ℚ
  misclosure : Option ℚ
  is_used : Bool
  deriving DecidableEq, Repr

/-- The method toggle of `LevelingLine.toggle_direction`: `BF ↔ FB`, other
methods unchanged. -/
def toggleMethod (m : String) : String :=
  if m = "BF" then "FB" else if m = "FB" then "BF" else m

/-- The per-setup body of `LevelingLine.toggle_direction`: negate a
non-`None` height difference and swap the from/to points. -/
def toggleSetup (s : StationSetup) : StationSetup :=
  { s with
    height_diff := s.height_diff.map (fun h => -h)
    from_point := s.to_point
    to_point := s.from_point }

/-- `LevelingLine.toggle_direction`: swap endpoints, toggle BF/FB, negate
every non-`None` setup height difference, swap each setup's from/to, and
negate the total height difference. -/
def toggle_direction (line : LevelingLine) : LevelingLine :=
  { line with
    start_point := line.end_point
    end_point := line.start_point
    method := toggleMethod line.method
    setups := line.setups.map toggleSetup
    total_height_diff := -line.total_height_diff }

/-- `engine/height_calculator.py` `calculate_height_diff`. -/
def calculate_height_diff (backsight foresight : ℚ) : ℚ :=
  backsight - foresight

/-- Per-setup average distance `(distance_back + distance_fore) / 2` used by
`calculate_line_totals` and `distribute_misclosure`. -/
def setupAvgDist (s : StationSetup) : ℚ :=
  (s.distance_back + s.distance_fore) / 2

/-- Contribution of one setup to the accumulated total height difference in
`calculate_line_totals`: the stored `height_diff` when present, otherwise
`Rb - Rf` when both readings are truthy, otherwise nothing. -/
def setupDHContrib (s : StationSetup) : ℚ :=
  match s.height_diff with
  | some h => h
  | none =>
    if s.backsight_reading ≠ 0 ∧ s.foresight_reading ≠ 0 then
      calculate_height_diff s.backsight_reading s.foresight_reading
    else 0

/-- `engine/height_calculator.py` `calculate_line_totals`: the accumulation
loop over `line.setups`, rendered as a pair of list sums. -/
def calculate_line_totals (line : LevelingLine) : ℚ × ℚ :=
  ((line.setups.map setupAvgDist).sum, (line.setups.map setupDHContrib).sum)

/-- `engine/height_calculator.py` `calculate_misclosure`. -/
def calculate_misclosure (computed_dh start_height end_height : ℚ) : ℚ :=
  computed_dh - (end_height - start_height)

/-- `engine/height_calculator.py` `distribute_misclosure`: one correction per
setup; `equal` divides `-misclosure` evenly, `proportional` allocates it by
per-setup average distance over the *stored* `line.total_distance` (with the
zero-distance guard); any other method leaves the `corrections` list empty. -/
def distribute_misclosure (line : LevelingLine) (misclosure : ℚ)
    (method : String) : List ℚ :=
  let n := line.setups.length
  if n = 0 then []
  else if method = "equal" then
    List.replicate n (-misclosure / n)
  else if method = "proportional" then
    if line.total_distance = 0 then List.replicate n 0
    else line.setups.map (fun s =>
      -misclosure * (setupAvgDist s / line.total_distance))
  else []

/-- The in-place correction loop of `apply_corrections`: returns the updated
setups together with the final running cumulative height. -/
def applyCorrLoop : List StationSetup → List ℚ → ℚ → List StationSetup × ℚ
  | [], _, cum => ([], cum)
  | s :: ss, [], cum => (s :: ss, cum)
  | s :: ss, c :: cs, cum =>
    let hd := s.height_diff.map (fun h => h + c)
    let cum2 := match hd with | some h => cum + h | none => cum
    let s2 := { s with height_diff := hd, cumulative_height := some cum2 }
    let rest := applyCorrLoop ss cs cum2
    (s2 :: rest.1, rest.2)

/-- `engine/height_calculator.py` `apply_corrections`: raises `ValueError`
when the correction count differs from the setup count, otherwise applies
each correction, recomputes cumulative heights and resets the total. -/
def apply_corrections (line : LevelingLine) (corrections : List ℚ) :
    Except AdjError LevelingLine :=
  if corrections.length ≠ line.setups.length then
    .error (.valueError "Number of corrections must match number of setups")
  else
    let r := applyCorrLoop line.setups corrections 0
    .ok { line with setups := r.1, total_height_diff := r.2 }

/-!
### Accuracy classes (`config/israel_survey_regulations.py`)

Only the field read by the engine (`tolerance_coefficient`, mm·km^(-1/2))
is carried; the remaining configuration fields are never consulted by the
functions under verification.
-/

/-- `ClassParameters` (the field the loop analyzer reads). -/
structure ClassParameters where
  class_name : String
  tolerance_coefficient : ℚ
  deriving DecidableEq, Repr

def H1_PARAMETERS : ClassParameters := ⟨"H1", 3⟩

def H2_PARAMETERS : ClassParameters := ⟨"H2", 5⟩

def H3_PARAMETERS : ClassParameters := ⟨"H3", 10⟩

def H4_PARAMETERS : ClassParameters := ⟨"H4", 20⟩

def H5_PARAMETERS : ClassParameters := ⟨"H5", 30⟩

def H6_PARAMETERS : ClassParameters := ⟨"H6", 60⟩

/-- `get_class_parameters`: `some` for classes 1..6, `none` for the
`ValueError` the Python raises otherwise. -/
def get_class_parameters (k : Nat) : Option ClassParameters :=
  match k with
  | 1 => some H1_PARAMETERS
  | 2 => some H2_PARAMETERS
  | 3 => some H3_PARAMETERS
  | 4 => some H4_PARAMETERS
  | 5 => some H5_PARAMETERS
  | 6 => some H6_PARAMETERS
  | _ => none

/-- Square of `ClassParameters.get_tolerance_mm`: the code computes
`coefficient * math.sqrt(distance_km)`; the embedding stores its square
`coefficient² * distance_km` (all comparisons against it in the sources are
comparisons of nonnegative quantities, hence equivalent on squares). -/
def get_tolerance_mm_sq (p : ClassParameters) (dist_km : ℚ) : ℚ :=
  p.tolerance_coefficient ^ 2 * dist_km

/-!
### Loop detection (`engine/loop_detector.py`)
-/

/-- `loop_detector.Loop`.  `allowable_tolerance_sq` stores the square of the
Python `allowable_tolerance` (which is `coefficient * sqrt(dist_km)`). -/
structure Loop where
  lines : List LevelingLine
  points : List String
  total_distance : ℚ
  misclosure : ℚ
  allowable_tolerance_sq : ℚ
  deriving DecidableEq, Repr

/-- `Loop.tolerance_class`: scan H1..H6 in order of strictness and return
the first class whose tolerance is at least the absolute misclosure (in mm),
else the sentinel `0`.  The Python `for class_num in range(1, 7)` loop is
unrolled; `|misclosure|·1000 ≤ c·√dist_km` is compared on squares. -/
def Loop.tolerance_class (loop : Loop) : Nat :=
  let dist_km := loop.total_distance / 1000
  let mis_mm_sq := (loop.misclosure * 1000) ^ 2
  if mis_mm_sq ≤ get_tolerance_mm_sq H1_PARAMETERS dist_km then 1
  else if mis_mm_sq ≤ get_tolerance_mm_sq H2_PARAMETERS dist_km then 2
  else if mis_mm_sq ≤ get_tolerance_mm_sq H3_PARAMETERS dist_km then 3
  else if mis_mm_sq ≤ get_tolerance_mm_sq H4_PARAMETERS dist_km then 4
  else if mis_mm_sq ≤ get_tolerance_mm_sq H5_PARAMETERS dist_km then 5
  else if mis_mm_sq ≤ get_tolerance_mm_sq H6_PARAMETERS dist_km then 6
  else 0

/-- `Loop.calculate_misclosure`: sum the member lines' stored totals into
`misclosure`/`total_distance` and set the allowable tolerance for the target
class (falling back to the H1 coefficient 3 on an invalid class, as the
`except ValueError` branch does). -/
def Loop.calculate_misclosure (loop : Loop) (target_class : Nat := 1) : Loop :=
  let total_dh := (loop.lines.map (fun l => l.total_height_diff)).sum
  let total_dist := (loop.lines.map (fun l => l.total_distance)).sum
  let coeff :=
    match get_class_parameters target_class with
    | some p => p.tolerance_coefficient
    | none => 3
  { loop with
    misclosure := total_dh
    total_distance := total_dist
    allowable_tolerance_sq := coeff ^ 2 * (total_dist / 1000) }

/-- `loop_detector.NetworkGraph`: adjacency keyed by point id, each entry a
list of (neighbour point, index of the owning line in `lines`).  Python
stores the `LevelingLine` object itself; the index into `lines` is the
embedding of its identity (`id(line)` / `line in used_lines`). -/
structure NetworkGraph where
  adjacency : List (String × List (String × Nat))
  lines : List LevelingLine
  points : List String
  deriving Repr

/-- `defaultdict(list)`-style append used by `NetworkGraph.add_line`. -/
def adjAppend (adj : List (String × List (String × Nat))) (k : String)
    (v : String × Nat) : List (String × List (String × Nat)) :=
  match adj with
  | [] => [(k, [v])]
  | (k2, vs) :: rest =>
    if k2 = k then (k2, vs ++ [v]) :: rest else (k2, vs) :: adjAppend rest k v

/-- `set.add`, determinised as first-insertion order (the Python `set`
iteration order is unspecified; the counts proved below are independent of
that order). -/
def addPoint (ps : List String) (p : String) : List String :=
  if p ∈ ps then ps else ps ++ [p]

/-- `NetworkGraph.add_line`: skip lines with a falsy (empty) endpoint,
otherwise record the line and both adjacency directions. -/
def NetworkGraph.add_line (g : NetworkGraph) (line : LevelingLine) : NetworkGraph :=
  if line.start_point = "" ∨ line.end_point = "" then g
  else
    let idx := g.lines.length
    { adjacency :=
        adjAppend (adjAppend g.adjacency line.start_point (line.end_point, idx))
          line.end_point (line.start_point, idx)
      lines := g.lines ++ [line]
      points := addPoint (addPoint g.points line.start_point) line.end_point }

/-- `NetworkGraph.add_lines`. -/
def NetworkGraph.add_lines (g : NetworkGraph) (ls : List LevelingLine) : NetworkGraph :=
  ls.foldl NetworkGraph.add_line g

/-- `NetworkGraph.get_neighbors`. -/
def NetworkGraph.get_neighbors (g : NetworkGraph) (p : String) : List (String × Nat) :=
  match g.adjacency.find? (fun e => e.1 = p) with
  | some e => e.2
  | none => []

/-- The recursive `dfs` of `NetworkGraph._find_loops_from_point`, with an
explicit fuel argument (the Python recursion is bounded by the `depth >
max_size` guard; `fuel = max_size + 2` at the root makes fuel exhaustion
unreachable).  A discovered loop is returned as its point path plus the
indices of the lines used. -/
def dfsLoops (g : NetworkGraph) (start : String) (maxSize : Nat) :
    Nat → String → List String → List Nat → Nat → List (List String × List Nat)
  | 0, _, _, _, _ => []
  | fuel + 1, current, path, used, depth =>
    if maxSize < depth then []
    else
      (g.get_neighbors current).flatMap (fun nb =>
        if nb.2 ∈ used then []
        else if nb.1 = start ∧ 2 ≤ used.length then
          [(path ++ [nb.1], used ++ [nb.2])]
        else if nb.1 ∉ path.drop 1 then
          dfsLoops g start maxSize fuel nb.1 (path ++ [nb.1]) (used ++ [nb.2]) (depth + 1)
        else [])

/-- `NetworkGraph._find_loops_from_point`. -/
def find_loops_from_point (g : NetworkGraph) (start : String) (maxSize : Nat) :
    List (List String × List Nat) :=
  dfsLoops g start maxSize (maxSize + 2) start [start] [] 0

/-- `frozenset` equality of the duplicate-free line-index lists used as loop
signatures in `find_all_loops`. -/
def sameLineSet (a b : List Nat) : Bool :=
  a.length = b.length ∧ a.all (fun x => x ∈ b)

/-- Build the `Loop` object from a discovered (points, line-indices) pair. -/
def mkLoop (g : NetworkGraph) (pr : List String × List Nat) : Loop :=
  { lines := pr.2.filterMap (fun i => g.lines.get? i)
    points := pr.1
    total_distance := 0
    misclosure := 0
    allowable_tolerance_sq := 0 }

/-- `NetworkGraph.find_all_loops`: DFS from every point, deduplicate by the
frozen set of line identities, run `calculate_misclosure` on each kept
loop. -/
def NetworkGraph.find_all_loops (g : NetworkGraph) (maxSize : Nat := 10) : List Loop :=
  (g.points.foldl
    (fun acc start =>
      (find_loops_from_point g start maxSize).foldl
        (fun acc2 pr =>
          if acc2.1.any (fun s => sameLineSet s pr.2) then acc2
          else (acc2.1 ++ [pr.2], acc2.2 ++ [Loop.calculate_misclosure (mkLoop g pr) 1]))
        acc)
    (([], []) : List (List Nat) × List Loop)).2

/-- Stable insertion of `x` into `l` (before the first element not below
`x`). -/
def insertSorted (le : α → α → Bool) (x : α) : List α → List α
  | [] => [x]
  | y :: ys => if le x y then x :: y :: ys else y :: insertSorted le x ys

/-- Stable insertion sort: the embedding of Python's stable `list.sort` /
`sorted`. -/
def sortStable (le : α → α → Bool) : List α → List α
  | [] => []
  | x :: xs => insertSorted le x (sortStable le xs)

/-- `NetworkGraph._dfs_visit` with explicit fuel (`points.length + 1` at the
root suffices: every nested call adds a previously unvisited point). -/
def NetworkGraph.dfs_visit (g : NetworkGraph) :
    Nat → String → List String → List String
  | 0, _, visited => visited
  | fuel + 1, p, visited =>
    (g.get_neighbors p).foldl
      (fun vis nb => if nb.1 ∈ vis then vis else NetworkGraph.dfs_visit g fuel nb.1 vis)
      (visited ++ [p])

/-- `NetworkGraph._count_components`. -/
def NetworkGraph.count_components (g : NetworkGraph) : Nat :=
  (g.points.foldl
    (fun st p =>
      if p ∈ st.1 then st
      else (NetworkGraph.dfs_visit g (g.points.length + 1) p st.1, st.2 + 1))
    (([], 0) : List String × Nat)).2

/-- The `expected_loops = num_edges - num_vertices + num_components` count
computed inside `find_minimum_loops` (a Python `int`, possibly negative). -/
def expected_loops (g : NetworkGraph) : Int :=
  (g.lines.length : Int) - (g.points.length : Int) + (g.count_components : Int)

/-- `NetworkGraph.find_minimum_loops`: enumerate all loops, sort by number
of lines, and slice with `[:max(expected_loops, len(all_loops))]` — the
`max` is taken verbatim from the source. -/
def NetworkGraph.find_minimum_loops (g : NetworkGraph) : List Loop :=
  let all_loops := sortStable (fun a b => a.lines.length ≤ b.lines.length)
    (g.find_all_loops 10)
  all_loops.take (max (expected_loops g) (all_loops.length : Int)).toNat

/-- The double-run test of `detect_double_runs`. -/
def isDoubleRun (l1 l2 : LevelingLine) : Prop :=
  l1.start_point = l2.end_point ∧ l1.end_point = l2.start_point

instance (l1 l2 : LevelingLine) : Decidable (isDoubleRun l1 l2) := by
  unfold isDoubleRun
  infer_instance

/-- The nested greedy loops of `detect_double_runs` over the enumerated line
list, with the `used` index set. -/
def ddrGo : List (Nat × LevelingLine) → List Nat → List (Nat × Nat)
  | [], _ => []
  | (i, l1) :: rest, used =>
    if i ∈ used then ddrGo rest used
    else
      match rest.find? (fun jl => decide (jl.1 ∉ used ∧ isDoubleRun l1 jl.2)) with
      | some jl => (i, jl.1) :: ddrGo rest (i :: jl.1 :: used)
      | none => ddrGo rest used

/-- `loop_detector.detect_double_runs`, returning the pairs of list indices
(the Python returns the pair of `LevelingLine` objects at those indices). -/
def detect_double_runs (lines : List LevelingLine) : List (Nat × Nat) :=
  ddrGo lines.enum []

/-- Flattened indices of the returned pairs (for the "each line is used at
most once" statement). -/
def pairIndices (ps : List (Nat × Nat)) : List Nat :=
  ps.flatMap (fun p => [p.1, p.2])

/-!
### Matrix kernel (`engine/adjustment_computations.py`)

Matrices are rectangular lists of rows over `ℚ`.  `np.linalg.det` /
`np.linalg.solve` / `np.linalg.inv` are embedded exactly: in exact rational
arithmetic a square system is solvable iff its determinant is nonzero, so
`solve` is Cramer's rule and `inv` the adjugate formula, and the float
singularity threshold `|det| < 1e-15` becomes `det = 0`.  The non-fatal
ill-conditioning warning (a float condition-number estimate) has no exact
counterpart and is not modelled; it aborts nothing in the source.
-/

/-- Row-major rational matrix. -/
abbrev Mat := List (List ℚ)

/-- Rational vector. -/
abbrev Vec := List ℚ

/-- Dot product. -/
def dotVec (u v : Vec) : ℚ := (List.zipWith (fun a b => a * b) u v).sum

/-- Matrix–vector product. -/
def matVec (A : Mat) (x : Vec) : Vec := A.map (fun r => dotVec r x)

/-- Transpose of a rectangular matrix with at least one row (`.T`). -/
def transposeM : Mat → Mat
  | [] => []
  | [r] => r.map (fun a => [a])
  | r :: rs => List.zipWith (fun a col => a :: col) r (transposeM rs)

/-- Matrix product. -/
def matMul (A B : Mat) : Mat := A.map (fun r => (transposeM B).map (fun c => dotVec r c))

/-- Componentwise vector subtraction. -/
def vecSub (u v : Vec) : Vec := List.zipWith (fun a b => a - b) u v

/-- Scalar multiple of a matrix. -/
def scalarMat (c : ℚ) (A : Mat) : Mat := A.map (fun r => r.map (fun a => c * a))

/-- Main diagonal of a square matrix (`np.diag` of a matrix). -/
def diagOf : Mat → Vec
  | [] => []
  | r :: rs => r.headD 0 :: diagOf (rs.map (fun row => row.tail))
termination_by m => m.length
decreasing_by simp [List.length_map]

/-- Diagonal matrix with the given diagonal (`np.diag` of a vector, and the
shape of every weight matrix the adjusters build with `np.zeros` plus a
diagonal fill). -/
def diagMat : Vec → Mat
  | [] => []
  | w :: rest => (w :: rest.map (fun _ => 0)) :: (diagMat rest).map (fun row => 0 :: row)

/-- Column count of a rectangular matrix (the second component of the numpy
shape). -/
def ncols (A : Mat) : Nat := (A.headD []).length

/-- `[0, 1, ..., n-1]`. -/
def upto : Nat → List Nat
  | 0 => []
  | n + 1 => upto n ++ [n]

/-- Delete column `j` from every row. -/
def dropCol (j : Nat) (rows : Mat) : Mat := rows.map (fun row => row.eraseIdx j)

/-- Laplace expansion along the first row, fuelled by the row count (the
fuel equals the matrix size at every call, so it never runs out on square
input). -/
def detFuel : Nat → Mat → ℚ
  | 0, _ => 1
  | _ + 1, [] => 1
  | fuel + 1, r :: rs =>
    (r.enum.map (fun ja => (-1) ^ ja.1 * ja.2 * detFuel fuel (dropCol ja.1 rs))).sum

/-- `np.linalg.det` (exact). -/
def det (A : Mat) : ℚ := detFuel A.length A

/-- Replace column `j` by `U`. -/
def replaceCol (A : Mat) (j : Nat) (U : Vec) : Mat :=
  List.zipWith (fun row u => row.set j u) A U

/-- `np.linalg.solve` (exact): Cramer's rule; `none` is the `LinAlgError`
raised on a singular matrix. -/
def linSolve (N : Mat) (U : Vec) : Option Vec :=
  if det N = 0 then none
  else some ((upto (ncols N)).map (fun j => det (replaceCol N j U) / det N))

/-- Adjugate matrix (entry `(i, j)` is the `(j, i)` cofactor). -/
def adjugate (A : Mat) : Mat :=
  (upto A.length).map (fun i => (upto A.length).map (fun j =>
    (-1) ^ (i + j) * det (dropCol i (A.eraseIdx j))))

/-- `np.linalg.inv` (exact): `none` is the `LinAlgError` on a singular
matrix. -/
def matInv (A : Mat) : Option Mat :=
  if det A = 0 then none else some (scalarMat (1 / det A) (adjugate A))

/-- numpy shape test `M.shape == (r, c)` for a row-major list matrix. -/
def isShape (M : Mat) (r c : Nat) : Prop :=
  M.length = r ∧ ∀ row ∈ M, row.length = c

instance (M : Mat) (r c : Nat) : Decidable (isShape M r c) := by
  unfold isShape
  infer_instance

/-- All off-diagonal entries zero
(`np.count_nonzero(P - np.diag(np.diagonal(P))) == 0`). -/
def isDiagonal (P : Mat) : Prop :=
  ∀ pr ∈ P.enum, ∀ qc ∈ pr.2.enum, pr.1 ≠ qc.1 → qc.2 = 0

instance (P : Mat) : Decidable (isDiagonal P) := by
  unfold isDiagonal
  infer_instance

/-- Result dictionary of `run_linear_adjustment`.  `sigma_0_sq` and
`std_errors_sq` store the squares of the Python `sigma_0` and `std_errors`
(the code takes `np.sqrt` of these quantities). -/
structure LinAdjResult where
  X : Vec
  V : Vec
  N : Mat
  Qxx : Option Mat
  sigma_0_sq : ℚ
  std_errors_sq : Option Vec
  deriving DecidableEq, Repr

/-- `AdjustmentComputations.run_linear_adjustment`: validate dimensions,
require `rows(A) > cols(A)` (else `InsufficientObservationsError`), form
`N = AᵀPA`, `U = AᵀPL`, optionally raise `SingularMatrixError` from the
stability check (`det = 0`), solve `N·X = U`, and assemble residuals,
variance factor and cofactor data. -/
def run_linear_adjustment (A : Mat) (L : Vec) (P : Mat) (check_stability : Bool) :
    Except AdjError LinAdjResult :=
  let n_obs := A.length
  let n_unknowns := ncols A
  if L.length ≠ n_obs then
    .error (.valueError "Dimension mismatch: A vs L")
  else if ¬ isShape P n_obs n_obs then
    .error (.valueError "Weight matrix P has wrong shape")
  else if n_obs ≤ n_unknowns then
    .error (.insufficientObservations "Insufficient observations")
  else
    let At := transposeM A
    let N := matMul (matMul At P) A
    let U := matVec (matMul At P) L
    if check_stability ∧ det N = 0 then
      .error (.singularMatrix "Normal Matrix N is singular")
    else
      match linSolve N U with
      | none => .error (.singularMatrix "Cannot solve normal equations")
      | some X =>
        let V := vecSub (matVec A X) L
        let sigma_0_sq := dotVec V (matVec P V) / ((n_obs - n_unknowns : Nat) : ℚ)
        let Qxx := matInv N
        .ok { X := X, V := V, N := N, Qxx := Qxx, sigma_0_sq := sigma_0_sq
              std_errors_sq := Qxx.map (fun Q => (diagOf Q).map (fun q => sigma_0_sq * q)) }

/-- Result dictionary of `run_conditional_adjustment` (`sigma_0_sq` stores
the square of the Python `sigma_0`). -/
structure CondAdjResult where
  k : Vec
  v : Vec
  N : Mat
  sigma_0_sq : ℚ
  deriving DecidableEq, Repr

/-- `AdjustmentComputations.run_conditional_adjustment`: validate
dimensions, require `conditions < observations` (else
`InsufficientObservationsError`), invert `P` (inverse, else diagonal
reciprocal, else `WeightMatrixError`), form `N = B·P⁻¹·Bᵗ`, `u = −w`, solve
for the correlates and compute residuals `v = −P⁻¹Bᵗk`. -/
def run_conditional_adjustment (B : Mat) (w : Vec) (P : Mat) (check_stability : Bool) :
    Except AdjError CondAdjResult :=
  let n_conditions := B.length
  let n_obs := ncols B
  if w.length ≠ n_conditions then
    .error (.valueError "Dimension mismatch: B vs w")
  else if ¬ isShape P n_obs n_obs then
    .error (.valueError "Weight matrix P has wrong shape")
  else if n_obs ≤ n_conditions then
    .error (.insufficientObservations "Insufficient observations: under-determined")
  else
    let Pinv? : Except AdjError Mat :=
      match matInv P with
      | some Pi => .ok Pi
      | none =>
        if isDiagonal P then .ok (diagMat ((diagOf P).map (fun d => 1 / d)))
        else .error (.weightMatrix "Weight matrix P is singular and non-diagonal")
    match Pinv? with
    | .error e => .error e
    | .ok Pi =>
      let N := matMul (matMul B Pi) (transposeM B)
      let u := w.map (fun x => -x)
      if check_stability ∧ det N = 0 then
        .error (.singularMatrix "Normal Matrix N (Conditional) is singular")
      else
        match linSolve N u with
        | none => .error (.singularMatrix "Cannot solve conditional normal equations")
        | some k =>
          let v := (matVec (matMul Pi (transposeM B)) k).map (fun x => -x)
          let sigma_0_sq := dotVec v (matVec P v) / ((n_obs - n_conditions : Nat) : ℚ)
          .ok { k := k, v := v, N := N, sigma_0_sq := sigma_0_sq }

/-!
### Parametric network adjuster (`engine/least_squares.py`)
-/

/-- `MeasurementSummary` (the fields `LeastSquaresAdjuster.adjust` reads;
the export-only fields `num_setups`, `bf_diff`, `year_month`, `source_file`,
`residual`, `adjusted_dh`, `is_used` play no role in the adjustment). -/
structure MeasurementSummary where
  from_point : String
  to_point : String
  height_diff : ℚ
  distance : ℚ
  deriving DecidableEq, Repr

/-- `AdjustmentResult` (`config/models.py`).  `mse_unit_weight_sq` and
`k_coefficient_sq` store the squares of the Python values (which are
`np.sqrt`-derived); dictionaries are association lists. -/
structure AdjustmentResult where
  iteration : Nat
  mse_unit_weight_sq : ℚ
  adjusted_heights : List (String × ℚ)
  residuals : List (String × ℚ)
  mse_heights : List (String × ℚ)
  total_distance_km : ℚ
  total_diff_mm : ℚ
  k_coefficient_sq : ℚ
  deriving DecidableEq, Repr

/-- First-match association-list lookup (`dict.get`). -/
def lookupQ (k : String) : List (String × ℚ) → Option ℚ
  | [] => none
  | kv :: rest => if kv.1 = k then some kv.2 else lookupQ k rest

/-- `dict[k] += d` for a key already present. -/
def updateAdd (m : List (String × ℚ)) (k : String) (d : ℚ) : List (String × ℚ) :=
  m.map (fun kv => if kv.1 = k then (kv.1, kv.2 + d) else kv)

/-- The `all_points` set of `adjust`, determinised in first-insertion order
(it is only ever filtered and sorted, so the set order is immaterial). -/
def collectPoints (observations : List MeasurementSummary) : List String :=
  observations.foldl (fun acc obs => addPoint (addPoint acc obs.from_point) obs.to_point) []

/-- Design-matrix row: `+1` at the "to" column, `−1` at the "from" column
(the "from" assignment happens second in the source, so it wins when the two
points coincide), `0` elsewhere and for fixed endpoints. -/
def buildA (observations : List MeasurementSummary) (unknown_list : List String) : Mat :=
  observations.map (fun obs => unknown_list.map (fun pid =>
    if pid = obs.from_point then -1 else if pid = obs.to_point then 1 else 0))

/-- Observation vector `L[i] = observed − computed` at the current
heights (`current_heights.get(pt, 0)`). -/
def buildL (observations : List MeasurementSummary) (heights : List (String × ℚ)) : Vec :=
  observations.map (fun obs =>
    obs.height_diff -
      ((lookupQ obs.to_point heights).getD 0 - (lookupQ obs.from_point heights).getD 0))

/-- Per-observation weight `1/distance_km`, or `1` when the distance is not
positive. -/
def weightOf (obs : MeasurementSummary) : ℚ :=
  let dist_km := obs.distance / 1000
  if 0 < dist_km then 1 / dist_km else 1

/-- Diagonal weight matrix of `adjust`. -/
def buildP (observations : List MeasurementSummary) : Mat :=
  diagMat (observations.map weightOf)

/-- `current_heights[pid] += dX[j]` over the unknown list. -/
def applyDX (heights : List (String × ℚ)) (unknown_list : List String) (dX : Vec) :
    List (String × ℚ) :=
  (unknown_list.zip dX).foldl (fun h pd => updateAdd h pd.1 pd.2) heights

/-- `max(|dX[j]|)` with the Python starting value `0.0`. -/
def maxAbs (v : Vec) : ℚ := v.foldl (fun acc c => max acc |c|) 0

/-- `unknown_list = sorted(all_points - fixed_ids)` (Python sorts strings by
code points, which is the `String` order). -/
def unknownListOf (observations : List MeasurementSummary)
    (fixed_points : List (String × ℚ)) : List String :=
  sortStable (fun a b => decide (a ≤ b))
    ((collectPoints observations).filter (fun p => (lookupQ p fixed_points).isNone))

/-- `current_heights = dict(fixed_points)` followed by
`current_heights[pid] = approximate_heights.get(pid, 0.0)` over the unknown
list. -/
def initHeights (unknown_list : List String) (fixed_points approx : List (String × ℚ)) :
    List (String × ℚ) :=
  fixed_points ++ unknown_list.map (fun pid => (pid, (lookupQ pid approx).getD 0))

/-- The iteration loop of `LeastSquaresAdjuster.adjust`: build `A`, `L`,
`P`, delegate to `run_linear_adjustment` (a `SingularMatrixError` is
re-raised as `ValueError`), apply the corrections to the unknowns, and stop
when `max|correction| < tolerance` or the iteration budget is exhausted.
Returns the final heights, the final value of the loop variable
`iteration`, and the `A`, `L`, `P`, `dX` that remain in scope for the
post-loop statistics.  `remaining = 0` at entry models `max_iterations < 1`,
where the Python falls out of the loop and crashes on the undefined `A`
(embedded as an error). -/
def adjustLoop (cs : Bool) (tol : ℚ) (observations : List MeasurementSummary)
    (unknown_list : List String) :
    Nat → Nat → List (String × ℚ) →
    Except AdjError (List (String × ℚ) × Nat × Mat × Vec × Mat × Vec)
  | 0, _, _ => .error (.valueError "loop body never executed")
  | remaining + 1, iterNum, heights =>
    let A := buildA observations unknown_list
    let L := buildL observations heights
    let P := buildP observations
    match run_linear_adjustment A L P cs with
    | .error (.singularMatrix s) => .error (.valueError s)
    | .error e => .error e
    | .ok res =>
      let dX := res.X
      let heights2 := applyDX heights unknown_list dX
      if maxAbs dX < tol then .ok (heights2, iterNum, A, L, P, dX)
      else if remaining = 0 then .ok (heights2, iterNum, A, L, P, dX)
      else adjustLoop cs tol observations unknown_list remaining (iterNum + 1) heights2

/-- `LeastSquaresAdjuster.adjust`.  After the loop, residual statistics are
computed from the last iteration's matrices; the `mse_heights` block of the
source reads `Qxx = np.linalg.inv(N)` where `N` is an *undefined name* in
`adjust` (it is local to `run_linear_adjustment`), so the `NameError` is
swallowed by the bare `except:` and every unknown receives the fallback
`0.0` — the embedding reproduces exactly that. -/
def adjust (max_iterations : Nat) (tolerance : ℚ) (check_stability : Bool)
    (observations : List MeasurementSummary) (fixed_points : List (String × ℚ))
    (approximate_heights : List (String × ℚ)) : Except AdjError AdjustmentResult :=
  if observations.length = 0 then .error (.valueError "No observations provided")
  else if fixed_points.length = 0 then .error (.valueError "At least one fixed point required")
  else
    let unknown_list := unknownListOf observations fixed_points
    if unknown_list.length = 0 then
      .error (.valueError "All points are fixed - nothing to adjust")
    else
      let heights0 := initHeights unknown_list fixed_points approximate_heights
      match adjustLoop check_stability tolerance observations unknown_list
          max_iterations 1 heights0 with
      | .error e => .error e
      | .ok (heights, iter, A, L, P, dX) =>
        let V := vecSub (matVec A dX) L
        let n_obs := observations.length
        let n_unknowns := unknown_list.length
        let mse_unit_weight_sq :=
          if n_unknowns < n_obs then
            dotVec V (matVec P V) / ((n_obs - n_unknowns : Nat) : ℚ)
          else 0
        let mse_heights := unknown_list.map (fun pid => (pid, (0 : ℚ)))
        let total_dist_km := (observations.map (fun o => o.distance)).sum / 1000
        let total_diff_mm := (V.map (fun x => |x| * 1000)).sum
        let k_coefficient_sq :=
          if 0 < total_dist_km then total_diff_mm ^ 2 / total_dist_km else 0
        let residuals := (observations.zip V).map (fun ov =>
          (ov.1.from_point ++ "-" ++ ov.1.to_point, ov.2 * 1000))
        .ok { iteration := iter
              mse_unit_weight_sq := mse_unit_weight_sq
              adjusted_heights := heights
              residuals := residuals
              mse_heights := mse_heights
              total_distance_km := total_dist_km
              total_diff_mm := total_diff_mm
              k_coefficient_sq := k_coefficient_sq }

/-! ### Concrete instances used by counterexamples and witnesses -/

/-- A single setup whose average sight distance is `100` m. -/
def setupAB : StationSetup :=
  mkStationSetup 1 "A" "B" 1 2 100 100 none none true

/-- A line whose *stored* `total_distance` (200 m) disagrees with the sum of
its setups' average distances (100 m). -/
def lineInconsistent : LevelingLine :=
  { filename := "bad", start_point := "A", end_point := "B"
    setups := [setupAB], method := "BF", total_distance := 200
    total_height_diff := -1, misclosure := none, is_used := true }

/-- A line whose stored `total_distance` (100 m) matches the sum of its
setups' average distances. -/
def lineConsistent : LevelingLine :=
  { filename := "good", start_point := "A", end_point := "B"
    setups := [setupAB], method := "BF", total_distance := 100
    total_height_diff := -1, misclosure := none, is_used := true }

/-- A setup-free line between two named points with given totals. -/
def mkBareLine (fn s e : String) (dist dh : ℚ) : LevelingLine :=
  { filename := fn, start_point := s, end_point := e, setups := []
    method := "BF", total_distance := dist, total_height_diff := dh
    misclosure := none, is_used := true }

/-- The closed triangle of the spec: `A→B (dH=+1.0, d=1000)`,
`B→C (dH=+0.5, d=1000)`, `C→A (dH=−1.6, d=1000)`. -/
def triangleLoop : Loop :=
  { lines := [mkBareLine "AB" "A" "B" 1000 1, mkBareLine "BC" "B" "C" 1000 (1/2),
      mkBareLine "CA" "C" "A" 1000 (-8/5)]
    points := ["A", "B", "C", "A"]
    total_distance := 0, misclosure := 0, allowable_tolerance_sq := 0 }

/-- Two triangles sharing the edge `B–C`: 5 edges, 4 vertices, 1 component,
hence cycle-space dimension 2, while DFS enumeration finds 3 distinct
loops. -/
def twoTriangleGraph : NetworkGraph :=
  NetworkGraph.add_lines { adjacency := [], lines := [], points := [] }
    [mkBareLine "AB" "A" "B" 0 0, mkBareLine "BC" "B" "C" 0 0,
      mkBareLine "CA" "C" "A" 0 0, mkBareLine "BD" "B" "D" 0 0,
      mkBareLine "DC" "D" "C" 0 0]

/-- Forward run `A→B` of a double-run pair. -/
def runFwd : LevelingLine := mkBareLine "fwd" "A" "B" 1000 1

/-- Return run `B→A` of a double-run pair. -/
def runRev : LevelingLine := mkBareLine "rev" "B" "A" 1000 (-1)

/-- Two observations of the same unknown `X` from the fixed `BM1`
(`dH = 1` and `dH = 2` over 1000 m each): one unknown, two observations,
one degree of freedom, invertible normal matrix `N = [[2]]`. -/
def obsPair : List MeasurementSummary :=
  [{ from_point := "BM1", to_point := "X", height_diff := 1, distance := 1000 },
   { from_point := "BM1", to_point := "X", height_diff := 2, distance := 1000 }]

/-- The fixed benchmark of the `obsPair` network. -/
def fixedBM1 : List (String × ℚ) := [("BM1", 0)]

/-- `run_linear_adjustment` output on the first iteration of the `obsPair`
adjustment. -/
def adjExRes1 : LinAdjResult :=
  { X := [3/2], V := [1/2, -(1/2)], N := [[2]], Qxx := some [[1/2]]
    sigma_0_sq := 1/2, std_errors_sq := some [1/4] }

/-- `run_linear_adjustment` output on the second (converged) iteration. -/
def adjExRes2 : LinAdjResult :=
  { X := [0], V := [1/2, -(1/2)], N := [[2]], Qxx := some [[1/2]]
    sigma_0_sq := 1/2, std_errors_sq := some [1/4] }

/-- The full `adjust` result on the `obsPair` network: note
`mse_heights = [("X", 0)]` even though the degrees of freedom and the unit
weight error are positive. -/
def adjExResult : AdjustmentResult :=
  { iteration := 2
    mse_unit_weight_sq := 1/2
    adjusted_heights := [("BM1", 0), ("X", 3/2)]
    residuals := [("BM1-X", 500), ("BM1-X", -500)]
    mse_heights := [("X", 0)]
    total_distance_km := 2
    total_diff_mm := 1000
    k_coefficient_sq := 500000 }

/-!
## Theorems
-/

/-- Evaluation of `distribute_misclosure` for an unrecognised method. -/
theorem distribute_misclosure_other (line : LevelingLine) (m : ℚ) (method : String)
    (h2 : method ≠ "equal") (h3 : method ≠ "proportional") :
    distribute_misclosure line m method = [] := by
  simp only [distribute_misclosure]
  by_cases hn : line.setups.length = 0
  · rw [if_pos hn]
  · rw [if_neg hn, if_neg h2, if_neg h3]

/-- Evaluation of `distribute_misclosure` in the proportional, zero-distance
branch. -/
theorem distribute_misclosure_prop_zero (line : LevelingLine) (m : ℚ)
    (hn : line.setups.length ≠ 0) (h0 : line.total_distance = 0) :
    distribute_misclosure line m "proportional" =
      List.replicate line.setups.length 0 := by
  simp only [distribute_misclosure]
  rw [if_neg hn, if_neg (by decide : ¬ (("proportional" : String) = "equal"))]
  simp only [if_true]
  rw [if_pos h0]

/-- Evaluation of `distribute_misclosure` in the proportional, nonzero
distance branch. -/
theorem distribute_misclosure_prop (line : LevelingLine) (m : ℚ)
    (hn : line.setups.length ≠ 0) (hne : line.total_distance ≠ 0) :
    distribute_misclosure line m "proportional" =
      line.setups.map (fun s => -m * (setupAvgDist s / line.total_distance)) := by
  simp only [distribute_misclosure]
  rw [if_neg hn, if_neg (by decide : ¬ (("proportional" : String) = "equal"))]
  simp only [if_true]
  rw [if_neg hne]

/-- `toggleMethod` is an involution. -/
theorem toggleMethod_involutive (m : String) : toggleMethod (toggleMethod m) = m := by
  rw [toggleMethod, toggleMethod]
  split_ifs <;> simp_all

/-- `toggleSetup` is an involution. -/
theorem toggleSetup_involutive (s : StationSetup) : toggleSetup (toggleSetup s) = s := by
  cases s with
  | mk n fp tp bs fs db df hd cum u =>
    cases hd <;> simp [toggleSetup]

/-- **C6.** For every `LevelingLine`, calling `toggle_direction` twice
restores the original line in full: start/end points, method, every setup's
height difference and from/to points, and the total height difference
(direction toggling is an involution). -/
theorem c6_toggle_direction_involution (line : LevelingLine) :
    toggle_direction (toggle_direction line) = line := by
  cases line with
  | mk fn sp ep setups method td thd mis used =>
    simp only [toggle_direction, List.map_map, LevelingLine.mk.injEq, neg_neg,
      and_true, true_and]
    constructor
    · have h : toggleSetup ∘ toggleSetup = id := funext toggleSetup_involutive
      rw [h, List.map_id]
    · exact toggleMethod_involutive method

/-- **C4 counterexample.** A line whose stored `total_distance` is nonzero but
disagrees with the sum of its setups' average distances: the proportional
corrections for misclosure `m = 1` sum to `-1/2`, not `-1`, missing the
claimed `1e-9` tolerance. -/
theorem c4_counterexample :
    lineInconsistent.total_distance ≠ 0 ∧
    ¬ |(distribute_misclosure lineInconsistent 1 "proportional").sum - (-1)|
        ≤ 1 / 1000000000 := by
  constructor
  · norm_num [lineInconsistent]
  · have hval : (distribute_misclosure lineInconsistent 1 "proportional").sum - (-1)
        = 1 / 2 := by
      rw [distribute_misclosure_prop lineInconsistent 1
        (by simp [lineInconsistent]) (by norm_num [lineInconsistent])]
      norm_num [lineInconsistent, setupAB, mkStationSetup, setupAvgDist]
    rw [hval, abs_le]
    norm_num

/-- **C4 (amended).** For every `LevelingLine` whose stored `total_distance`
equals the sum of its setups' average distances and is nonzero, the
proportional corrections sum to `-m` (exactly, hence within `1e-9`); when the
stored `total_distance` is zero, the method returns one zero correction per
setup. -/
theorem c4_proportional_sum (line : LevelingLine) (m : ℚ) :
    (line.total_distance = (line.setups.map setupAvgDist).sum →
      line.total_distance ≠ 0 →
      |(distribute_misclosure line m "proportional").sum - (-m)| ≤ 1 / 1000000000) ∧
    (line.total_distance = 0 →
      distribute_misclosure line m "proportional" =
        List.replicate line.setups.length 0) := by
  constructor
  · intro htot hne
    have hn : line.setups.length ≠ 0 := by
      intro h
      apply hne
      rw [htot, List.length_eq_zero.mp h]
      simp
    have hfun : (fun s => -m * (setupAvgDist s / line.total_distance))
        = (fun s => (-m / line.total_distance) * setupAvgDist s) := by
      funext s
      ring
    rw [distribute_misclosure_prop line m hn hne, hfun,
      List.sum_map_mul_left, ← htot, div_mul_cancel₀ _ hne]
    simp
  · intro h0
    by_cases hn : line.setups.length = 0
    · simp only [distribute_misclosure]
      rw [if_pos hn, hn]
      simp
    · exact distribute_misclosure_prop_zero line m hn h0

/-- **C4 witness.** On a concrete consistent line (one setup, 100 m) with
misclosure `1`, the proportional corrections sum to `-1` within `1e-9`. -/
theorem c4_proportional_sum_witness :
    |(distribute_misclosure lineConsistent 1 "proportional").sum - (-1)|
      ≤ 1 / 1000000000 :=
  (c4_proportional_sum lineConsistent 1).1
    (by norm_num [lineConsistent, setupAB, mkStationSetup, setupAvgDist])
    (by norm_num [lineConsistent])

/-- **C9.** For every line with at least one setup and a method other than
`equal` or `proportional`, `distribute_misclosure` returns the empty list,
so `apply_corrections` on that return value raises `ValueError`. -/
theorem c9_unknown_method_empty (line : LevelingLine) (m : ℚ) (method : String)
    (h1 : line.setups ≠ []) (h2 : method ≠ "equal") (h3 : method ≠ "proportional") :
    distribute_misclosure line m method = [] ∧
    apply_corrections line (distribute_misclosure line m method) =
      .error (.valueError "Number of corrections must match number of setups") := by
  have hd : distribute_misclosure line m method = [] :=
    distribute_misclosure_other line m method h2 h3
  refine ⟨hd, ?_⟩
  rw [hd, apply_corrections]
  have hlen0 : ¬ ((0 : Nat) = line.setups.length) := by
    intro h
    exact h1 (List.length_eq_zero.mp h.symm)
  simp [hlen0]

/-- **C9 witness.** Concrete: one-setup line, method `"linear"`. -/
theorem c9_unknown_method_empty_witness :
    distribute_misclosure lineConsistent 1 "linear" = [] ∧
    apply_corrections lineConsistent (distribute_misclosure lineConsistent 1 "linear") =
      .error (.valueError "Number of corrections must match number of setups") :=
  c9_unknown_method_empty lineConsistent 1 "linear" (by decide) (by decide) (by decide)

/-- **C10.** Constructing a `StationSetup` with `height_diff = None` and a
zero backsight or foresight reading leaves `height_diff = None` (the
`Rb - Rf` derivation is skipped for falsy readings), and
`calculate_line_totals` likewise adds no reading-derived contribution for
such a setup to the total height difference. -/
theorem c10_zero_reading_skips (n : Nat) (fp tp : String) (bs fs db df : ℚ)
    (cum : Option ℚ) (used : Bool) (h0 : bs = 0 ∨ fs = 0)
    (line : LevelingLine) (pre post : List StationSetup) :
    (mkStationSetup n fp tp bs fs db df none cum used).height_diff = none ∧
    (calculate_line_totals
        { line with setups := pre ++ mkStationSetup n fp tp bs fs db df none cum used :: post }).2
      = (calculate_line_totals { line with setups := pre ++ post }).2 := by
  have hcond : ¬ (bs ≠ 0 ∧ fs ≠ 0) := by
    rcases h0 with h | h <;> simp [h]
  have hnone : (mkStationSetup n fp tp bs fs db df none cum used).height_diff = none := by
    simp [mkStationSetup, hcond]
  refine ⟨hnone, ?_⟩
  have hcontrib : setupDHContrib (mkStationSetup n fp tp bs fs db df none cum used) = 0 := by
    unfold setupDHContrib
    rw [hnone]
    simp [mkStationSetup, hcond]
  simp [calculate_line_totals, hcontrib]

/-- **C2 counterexample.** On the spec's closed triangle the loop
classification is *not* the "exceeds all" sentinel `0`: the H6 tolerance
over 3 km is `60·√3 ≈ 103.9 mm`, which the `100 mm` misclosure satisfies. -/
theorem c2_triangle_counterexample :
    Loop.tolerance_class (Loop.calculate_misclosure triangleLoop 1) ≠ 0 := by
  have h : Loop.tolerance_class (Loop.calculate_misclosure triangleLoop 1) = 6 := by
    norm_num [Loop.tolerance_class, Loop.calculate_misclosure, triangleLoop,
      mkBareLine, get_tolerance_mm_sq, H1_PARAMETERS, H2_PARAMETERS, H3_PARAMETERS,
      H4_PARAMETERS, H5_PARAMETERS, H6_PARAMETERS, get_class_parameters]
  rw [h]
  decide

/-- **C2 (amended).** On the closed triangle `A→B (+1.0, 1000 m)`,
`B→C (+0.5, 1000 m)`, `C→A (−1.6, 1000 m)`, `Loop.calculate_misclosure`
yields misclosure `−0.1` m over total distance `3000` m, and the loop's
`tolerance_class` is `6` (class H6, whose tolerance `60·√3 ≈ 103.9 mm`
accommodates the `100 mm` misclosure), not the "exceeds all" sentinel `0`. -/
theorem c2_triangle_misclosure :
    (Loop.calculate_misclosure triangleLoop 1).misclosure = -(1/10) ∧
    (Loop.calculate_misclosure triangleLoop 1).total_distance = 3000 ∧
    Loop.tolerance_class (Loop.calculate_misclosure triangleLoop 1) = 6 := by
  refine ⟨?_, ?_, ?_⟩
  · norm_num [Loop.calculate_misclosure, triangleLoop, mkBareLine]
  · norm_num [Loop.calculate_misclosure, triangleLoop, mkBareLine]
  · norm_num [Loop.tolerance_class, Loop.calculate_misclosure, triangleLoop,
      mkBareLine, get_tolerance_mm_sq, H1_PARAMETERS, H2_PARAMETERS, H3_PARAMETERS,
      H4_PARAMETERS, H5_PARAMETERS, H6_PARAMETERS, get_class_parameters]

/-- **C3.** On the two-triangles network (5 edges, 4 vertices, 1 connected
component) the cycle-space dimension `expectedLoops` is `2`, yet
`find_minimum_loops` returns `3` loops: the slice bound
`max(expected_loops, len(all_loops))` never truncates, so the claimed
"at most `expectedLoops` loops" is violated by the code. -/
theorem c3_find_minimum_loops_exceeds_expected :
    expected_loops twoTriangleGraph = 2 ∧
    (NetworkGraph.find_minimum_loops twoTriangleGraph).length = 3 := by
  constructor
  · decide
  · decide

/-- Greedy-scan invariant of `detect_double_runs`: every returned index pair
avoids the incoming `used` set, has distinct components, and points at two
enumerated lines that reverse each other. -/
theorem ddrGo_mem (es : List (Nat × LevelingLine)) (used : List Nat)
    (hnd : (es.map Prod.fst).Nodup) :
    ∀ pr ∈ ddrGo es used,
      pr.1 ∉ used ∧ pr.2 ∉ used ∧ pr.1 ≠ pr.2 ∧
      ∃ l1 l2, (pr.1, l1) ∈ es ∧ (pr.2, l2) ∈ es ∧
        l1.start_point = l2.end_point ∧ l1.end_point = l2.start_point := by
  induction es generalizing used with
  | nil =>
    intro pr h
    simp [ddrGo] at h
  | cons e rest ih =>
    obtain ⟨i, l1⟩ := e
    have hndt : (rest.map Prod.fst).Nodup := hnd.of_cons
    have hinotin : i ∉ rest.map Prod.fst := by
      have h := hnd
      simp only [List.map_cons, List.nodup_cons] at h
      exact h.1
    intro pr hpr
    rw [ddrGo] at hpr
    by_cases hi : i ∈ used
    · rw [if_pos hi] at hpr
      obtain ⟨h1, h2, h3, l1x, l2x, m1, m2, hs, he⟩ := ih used hndt pr hpr
      exact ⟨h1, h2, h3, l1x, l2x, List.mem_cons_of_mem _ m1,
        List.mem_cons_of_mem _ m2, hs, he⟩
    · rw [if_neg hi] at hpr
      cases hfind : rest.find? (fun jl => decide (jl.1 ∉ used ∧ isDoubleRun l1 jl.2)) with
      | none =>
        rw [hfind] at hpr
        obtain ⟨h1, h2, h3, l1x, l2x, m1, m2, hs, he⟩ := ih used hndt pr hpr
        exact ⟨h1, h2, h3, l1x, l2x, List.mem_cons_of_mem _ m1,
          List.mem_cons_of_mem _ m2, hs, he⟩
      | some jl =>
        rw [hfind] at hpr
        have hpred : jl.1 ∉ used ∧ isDoubleRun l1 jl.2 := by
          have h := List.find?_some
            (p := fun (jl : Nat × LevelingLine) => decide (jl.1 ∉ used ∧ isDoubleRun l1 jl.2))
            hfind
          exact of_decide_eq_true h
        have hjmem : jl ∈ rest := List.mem_of_find?_eq_some hfind
        have hij : i ≠ jl.1 := by
          intro h
          apply hinotin
          rw [h]
          exact List.mem_map_of_mem Prod.fst hjmem
        rcases List.mem_cons.mp hpr with heq | htail
        · subst heq
          refine ⟨hi, hpred.1, hij, l1, jl.2, List.mem_cons_self _ _, ?_,
            hpred.2.1, hpred.2.2⟩
          exact List.mem_cons_of_mem _ (by simpa using hjmem)
        · obtain ⟨h1, h2, h3, l1x, l2x, m1, m2, hs, he⟩ :=
            ih (i :: jl.1 :: used) hndt pr htail
          refine ⟨?_, ?_, h3, l1x, l2x, List.mem_cons_of_mem _ m1,
            List.mem_cons_of_mem _ m2, hs, he⟩
          · intro h
            exact h1 (List.mem_cons_of_mem _ (List.mem_cons_of_mem _ h))
          · intro h
            exact h2 (List.mem_cons_of_mem _ (List.mem_cons_of_mem _ h))

/-- Index-disjointness invariant of `detect_double_runs`: the flattened
indices of the returned pairs are duplicate-free and avoid `used`. -/
theorem ddrGo_indices (es : List (Nat × LevelingLine)) (used : List Nat)
    (hnd : (es.map Prod.fst).Nodup) :
    (pairIndices (ddrGo es used)).Nodup ∧
      ∀ x ∈ pairIndices (ddrGo es used), x ∉ used := by
  induction es generalizing used with
  | nil =>
    simp [ddrGo, pairIndices]
  | cons e rest ih =>
    obtain ⟨i, l1⟩ := e
    have hndt : (rest.map Prod.fst).Nodup := hnd.of_cons
    have hinotin : i ∉ rest.map Prod.fst := by
      have h := hnd
      simp only [List.map_cons, List.nodup_cons] at h
      exact h.1
    rw [ddrGo]
    by_cases hi : i ∈ used
    · rw [if_pos hi]
      exact ih used hndt
    · rw [if_neg hi]
      cases hfind : rest.find? (fun jl => decide (jl.1 ∉ used ∧ isDoubleRun l1 jl.2)) with
      | none =>
        exact ih used hndt
      | some jl =>
        have hpred : jl.1 ∉ used ∧ isDoubleRun l1 jl.2 := by
          have h := List.find?_some
            (p := fun (jl : Nat × LevelingLine) => decide (jl.1 ∉ used ∧ isDoubleRun l1 jl.2))
            hfind
          exact of_decide_eq_true h
        have hjmem : jl ∈ rest := List.mem_of_find?_eq_some hfind
        have hij : i ≠ jl.1 := by
          intro h
          apply hinotin
          rw [h]
          exact List.mem_map_of_mem Prod.fst hjmem
        obtain ⟨hnodup, hnotin⟩ := ih (i :: jl.1 :: used) hndt
        have hpi : pairIndices ((i, jl.1) :: ddrGo rest (i :: jl.1 :: used))
            = i :: jl.1 :: pairIndices (ddrGo rest (i :: jl.1 :: used)) := by
          simp [pairIndices]
        constructor
        · rw [hpi]
          refine List.nodup_cons.mpr ⟨?_, List.nodup_cons.mpr ⟨?_, hnodup⟩⟩
          · intro h
            rcases List.mem_cons.mp h with h | h
            · exact hij h
            · exact hnotin i h (List.mem_cons_self _ _)
          · intro h
            exact hnotin jl.1 h (List.mem_cons_of_mem _ (List.mem_cons_self _ _))
        · rw [hpi]
          intro x hx
          rcases List.mem_cons.mp hx with h | h
          · subst h
            exact hi
          · rcases List.mem_cons.mp h with h | h
            · subst h
              exact hpred.1
            · intro hmem
              exact hnotin x h (List.mem_cons_of_mem _ (List.mem_cons_of_mem _ hmem))

/-- On exactly a forward line and its reversal, `detect_double_runs` finds
exactly the one pair of indices `(0, 1)`. -/
theorem detect_double_runs_two (A B : LevelingLine)
    (hs : A.start_point = B.end_point) (he : A.end_point = B.start_point) :
    detect_double_runs [A, B] = [(0, 1)] := by
  unfold detect_double_runs
  have henum : ([A, B] : List LevelingLine).enum = [(0, A), (1, B)] := rfl
  have hp1 : (fun (jl : Nat × LevelingLine) =>
      decide (jl.1 ∉ ([] : List Nat) ∧ isDoubleRun A jl.2)) (1, B) = true := by
    simp [isDoubleRun, hs, he]
  have hfind : List.find? (fun (jl : Nat × LevelingLine) =>
      decide (jl.1 ∉ ([] : List Nat) ∧ isDoubleRun A jl.2)) [(1, B)] = some (1, B) :=
    List.find?_cons_of_pos _ hp1
  rw [henum, ddrGo]
  rw [if_neg (show ¬ ((0 : Nat) ∈ ([] : List Nat)) by simp)]
  rw [hfind]
  show (0, 1) :: ddrGo [(1, B)] [0, 1] = [(0, 1)]
  rw [ddrGo]
  rw [if_pos (show (1 : Nat) ∈ [0, 1] by simp)]
  rfl

/-- **C8.** `detect_double_runs` returns only index pairs whose lines
exactly reverse each other, never reuses a line index across pairs, and on
exactly the two lines `A→B`, `B→A` returns exactly the one pair `(0, 1)`. -/
theorem c8_double_runs_pairwise (lines : List LevelingLine) :
    (∀ pr ∈ detect_double_runs lines,
      ∃ l1 l2, lines.get? pr.1 = some l1 ∧ lines.get? pr.2 = some l2 ∧
        l1.start_point = l2.end_point ∧ l1.end_point = l2.start_point) ∧
    (pairIndices (detect_double_runs lines)).Nodup ∧
    (∀ A B : LevelingLine, A.start_point = B.end_point →
      A.end_point = B.start_point → detect_double_runs [A, B] = [(0, 1)]) := by
  refine ⟨?_, (ddrGo_indices lines.enum [] (List.nodup_enum_map_fst lines)).1,
    detect_double_runs_two⟩
  intro pr hpr
  obtain ⟨-, -, -, l1, l2, m1, m2, hs, he⟩ :=
    ddrGo_mem lines.enum [] (List.nodup_enum_map_fst lines) pr hpr
  refine ⟨l1, l2, ?_, ?_, hs, he⟩
  · have h := List.mem_enum_iff_getElem?.mp m1
    simpa [List.get?_eq_getElem?] using h
  · have h := List.mem_enum_iff_getElem?.mp m2
    simpa [List.get?_eq_getElem?] using h

/-- **C8 witness.** Concrete forward/return lines `A→B`, `B→A`. -/
theorem c8_double_runs_pairwise_witness :
    detect_double_runs [runFwd, runRev] = [(0, 1)] :=
  (c8_double_runs_pairwise []).2.2 runFwd runRev rfl rfl

/-- **C10 witness.** Concrete: a setup with `backsight = 0`. -/
theorem c10_zero_reading_skips_witness :
    (mkStationSetup 1 "A" "B" 0 5 30 30 none none true).height_diff = none ∧
    (calculate_line_totals
        { lineConsistent with
          setups := [] ++ mkStationSetup 1 "A" "B" 0 5 30 30 none none true :: [] }).2
      = (calculate_line_totals { lineConsistent with setups := ([] : List StationSetup) ++ [] }).2 :=
  c10_zero_reading_skips 1 "A" "B" 0 5 30 30 none true (Or.inl rfl) lineConsistent [] []


theorem adjEx_run1 :
    run_linear_adjustment [[1], [1]] [1, 2] [[1, 0], [0, 1]] true = .ok adjExRes1 := by
  norm_num [run_linear_adjustment, adjExRes1, ncols, isShape, transposeM, matMul,
    matVec, dotVec, vecSub, det, detFuel, dropCol, linSolve, replaceCol, upto,
    matInv, adjugate, scalarMat, diagOf, List.enum, List.enumFrom]

theorem adjEx_run2 :
    run_linear_adjustment [[1], [1]] [-(1/2), 1/2] [[1, 0], [0, 1]] true = .ok adjExRes2 := by
  norm_num [run_linear_adjustment, adjExRes2, ncols, isShape, transposeM, matMul,
    matVec, dotVec, vecSub, det, detFuel, dropCol, linSolve, replaceCol, upto,
    matInv, adjugate, scalarMat, diagOf, List.enum, List.enumFrom]

theorem adjEx_unknowns : unknownListOf obsPair fixedBM1 = ["X"] := by
  norm_num +decide [unknownListOf, collectPoints, addPoint, sortStable, insertSorted,
    lookupQ, obsPair, fixedBM1]

theorem adjEx_init : initHeights ["X"] fixedBM1 [] = [("BM1", 0), ("X", 0)] := by
  norm_num +decide [initHeights, lookupQ, fixedBM1]

theorem adjEx_A : buildA obsPair ["X"] = [[1], [1]] := by
  norm_num +decide [buildA, obsPair]

theorem adjEx_P : buildP obsPair = [[1, 0], [0, 1]] := by
  norm_num [buildP, diagMat, weightOf, obsPair]

theorem adjEx_L1 : buildL obsPair [("BM1", 0), ("X", 0)] = [1, 2] := by
  norm_num +decide [buildL, lookupQ, obsPair]

theorem adjEx_L2 : buildL obsPair [("BM1", 0), ("X", 3/2)] = [-(1/2), 1/2] := by
  norm_num +decide [buildL, lookupQ, obsPair]

theorem adjEx_applyDX1 :
    applyDX [("BM1", 0), ("X", 0)] ["X"] [3/2] = [("BM1", 0), ("X", 3/2)] := by
  norm_num +decide [applyDX, updateAdd]

theorem adjEx_applyDX2 :
    applyDX [("BM1", 0), ("X", 3/2)] ["X"] [0] = [("BM1", 0), ("X", 3/2)] := by
  norm_num +decide [applyDX, updateAdd]

/-- One unfolding of the iteration loop when `run_linear_adjustment`
succeeds. -/
theorem adjustLoop_step (cs : Bool) (tol : ℚ) (obs : List MeasurementSummary)
    (ul : List String) (r iterNum : Nat) (heights : List (String × ℚ))
    (res : LinAdjResult)
    (hres : run_linear_adjustment (buildA obs ul) (buildL obs heights) (buildP obs) cs
      = .ok res) :
    adjustLoop cs tol obs ul (r + 1) iterNum heights =
      if maxAbs res.X < tol then
        .ok (applyDX heights ul res.X, iterNum, buildA obs ul, buildL obs heights,
          buildP obs, res.X)
      else if r = 0 then
        .ok (applyDX heights ul res.X, iterNum, buildA obs ul, buildL obs heights,
          buildP obs, res.X)
      else adjustLoop cs tol obs ul r (iterNum + 1) (applyDX heights ul res.X) := by
  simp only [adjustLoop, hres]

theorem adjEx_loop :
    adjustLoop true (1/1000000) obsPair ["X"] 10 1 [("BM1", 0), ("X", 0)] =
      .ok ([("BM1", 0), ("X", 3/2)], 2, [[1], [1]], [-(1/2), 1/2], [[1, 0], [0, 1]], [0]) := by
  have hres1 : run_linear_adjustment (buildA obsPair ["X"])
      (buildL obsPair [("BM1", 0), ("X", 0)]) (buildP obsPair) true = .ok adjExRes1 := by
    rw [adjEx_A, adjEx_L1, adjEx_P]
    exact adjEx_run1
  have hres2 : run_linear_adjustment (buildA obsPair ["X"])
      (buildL obsPair [("BM1", 0), ("X", 3/2)]) (buildP obsPair) true = .ok adjExRes2 := by
    rw [adjEx_A, adjEx_L2, adjEx_P]
    exact adjEx_run2
  rw [show (10 : Nat) = 9 + 1 from rfl, adjustLoop_step true (1/1000000) obsPair ["X"] 9 1
    [("BM1", 0), ("X", 0)] adjExRes1 hres1]
  rw [if_neg (by norm_num [adjExRes1, maxAbs, abs, max_def]), if_neg (by norm_num)]
  rw [show adjExRes1.X = [3/2] from rfl, adjEx_applyDX1]
  rw [show (9 : Nat) = 8 + 1 from rfl, adjustLoop_step true (1/1000000) obsPair ["X"] 8 2
    [("BM1", 0), ("X", 3/2)] adjExRes2 hres2]
  rw [if_pos (by norm_num [adjExRes2, maxAbs, abs, max_def])]
  rw [show adjExRes2.X = [0] from rfl, adjEx_applyDX2, adjEx_A, adjEx_L2, adjEx_P]

theorem adjust_example_eval :
    adjust 10 (1/1000000) true obsPair fixedBM1 [] = .ok adjExResult := by
  simp only [adjust, adjEx_unknowns, adjEx_init, adjEx_loop]
  norm_num +decide [adjExResult, obsPair, fixedBM1, matVec, dotVec, vecSub, adjExRes2,
    abs, max_def]


/-- First-match lookup through an append when the key is found on the
left. -/
theorem lookupQ_append_left (m1 m2 : List (String × ℚ)) (p : String) (h : ℚ)
    (hf : lookupQ p m1 = some h) : lookupQ p (m1 ++ m2) = some h := by
  induction m1 with
  | nil => simp [lookupQ] at hf
  | cons kv rest ih =>
    rw [List.cons_append, lookupQ]
    rw [lookupQ] at hf
    by_cases hk : kv.1 = p
    · rw [if_pos hk] at hf ⊢
      exact hf
    · rw [if_neg hk] at hf ⊢
      exact ih hf

/-- `updateAdd` leaves every other key untouched. -/
theorem lookupQ_updateAdd_ne (m : List (String × ℚ)) (k : String) (d : ℚ)
    (p : String) (hne : p ≠ k) : lookupQ p (updateAdd m k d) = lookupQ p m := by
  induction m with
  | nil => rfl
  | cons kv rest ih =>
    simp only [updateAdd, List.map_cons] at ih ⊢
    by_cases hk : kv.1 = k
    · rw [if_pos hk, lookupQ, lookupQ, if_neg (by rw [hk]; exact fun hh => hne hh.symm),
        if_neg (fun hh => hne (hk ▸ hh).symm)]
      exact ih
    · rw [if_neg hk, lookupQ, lookupQ]
      by_cases hp : kv.1 = p
      · rw [if_pos hp, if_pos hp]
      · rw [if_neg hp, if_neg hp]
        exact ih

/-- Applying the per-iteration corrections touches only unknown points. -/
theorem lookupQ_applyDX (heights : List (String × ℚ)) (unknowns : List String)
    (dX : Vec) (p : String) (hp : p ∉ unknowns) :
    lookupQ p (applyDX heights unknowns dX) = lookupQ p heights := by
  induction unknowns generalizing heights dX with
  | nil => simp [applyDX]
  | cons u us ih =>
    cases dX with
    | nil => simp [applyDX]
    | cons d ds =>
      have hpu : p ≠ u := fun h => hp (h ▸ List.mem_cons_self u us)
      have hpus : p ∉ us := fun h => hp (List.mem_cons_of_mem _ h)
      simp only [applyDX, List.zip_cons_cons, List.foldl_cons]
      have hrec := ih (updateAdd heights u d) ds hpus
      simp only [applyDX] at hrec
      rw [hrec, lookupQ_updateAdd_ne _ _ _ _ hpu]

/-- Membership through stable insertion. -/
theorem mem_insertSorted (le : α → α → Bool) (x a : α) (l : List α) :
    a ∈ insertSorted le x l ↔ a = x ∨ a ∈ l := by
  induction l with
  | nil => simp [insertSorted]
  | cons y ys ih =>
    rw [insertSorted]
    by_cases hle : le x y
    · rw [if_pos hle]
      simp only [List.mem_cons]
    · rw [if_neg hle]
      simp only [List.mem_cons, ih]
      tauto

/-- Sorting preserves membership. -/
theorem mem_sortStable (le : α → α → Bool) (a : α) (l : List α) :
    a ∈ sortStable le l ↔ a ∈ l := by
  induction l with
  | nil => simp [sortStable]
  | cons x xs ih =>
    rw [sortStable, mem_insertSorted]
    simp [ih]

/-- The iteration loop of `adjust` never changes the height stored for a
point outside the unknown list. -/
theorem adjustLoop_preserves (cs : Bool) (tol : ℚ) (obs : List MeasurementSummary)
    (unknowns : List String) (p : String) (hp : p ∉ unknowns) :
    ∀ (remaining iterNum : Nat) (heights : List (String × ℚ))
      (out : List (String × ℚ) × Nat × Mat × Vec × Mat × Vec),
      adjustLoop cs tol obs unknowns remaining iterNum heights = .ok out →
      lookupQ p out.1 = lookupQ p heights := by
  intro remaining
  induction remaining with
  | zero =>
    intro iterNum heights out h
    simp [adjustLoop] at h
  | succ r ih =>
    intro iterNum heights out h
    simp only [adjustLoop] at h
    split at h
    · exact absurd h (by simp)
    · exact absurd h (by simp)
    · rename_i res hres
      by_cases hconv : maxAbs res.X < tol
      · rw [if_pos hconv] at h
        cases h
        exact lookupQ_applyDX heights unknowns res.X p hp
      · rw [if_neg hconv] at h
        by_cases hr0 : r = 0
        · rw [if_pos hr0] at h
          cases h
          exact lookupQ_applyDX heights unknowns res.X p hp
        · rw [if_neg hr0] at h
          have hrec := ih (iterNum + 1) (applyDX heights unknowns res.X) out h
          rw [hrec, lookupQ_applyDX heights unknowns res.X p hp]

/-- **C5.** In every `LeastSquaresAdjuster.adjust` run that returns a
result, every point id present in `fixed_points` appears in
`result.adjusted_heights` with exactly its input height: the unknown list
excludes fixed ids, and every height update targets an unknown id only. -/
theorem c5_fixed_points_never_move (max_iterations : Nat) (tolerance : ℚ)
    (check_stability : Bool) (observations : List MeasurementSummary)
    (fixed_points approximate_heights : List (String × ℚ)) (r : AdjustmentResult)
    (p : String) (hgt : ℚ)
    (hok : adjust max_iterations tolerance check_stability observations fixed_points
      approximate_heights = .ok r)
    (hf : lookupQ p fixed_points = some hgt) :
    lookupQ p r.adjusted_heights = some hgt := by
  have hpu : p ∉ unknownListOf observations fixed_points := by
    intro hmem
    rw [unknownListOf, mem_sortStable] at hmem
    have hfil := List.of_mem_filter hmem
    rw [hf] at hfil
    simp at hfil
  simp only [adjust] at hok
  split at hok
  · exact absurd hok (by simp)
  · split at hok
    · exact absurd hok (by simp)
    · split at hok
      · exact absurd hok (by simp)
      · split at hok
        · exact absurd hok (by simp)
        · rename_i heights iter A L P dX hloop
          have hpre := adjustLoop_preserves check_stability tolerance observations
            (unknownListOf observations fixed_points) p hpu max_iterations 1
            (initHeights (unknownListOf observations fixed_points) fixed_points
              approximate_heights) (heights, iter, A, L, P, dX) hloop
          have hinit : lookupQ p (initHeights (unknownListOf observations fixed_points)
              fixed_points approximate_heights) = some hgt :=
            lookupQ_append_left _ _ _ _ hf
          have hr : r.adjusted_heights = heights := by
            cases hok
            rfl
          rw [hr, hpre, hinit]

/-- **C5 witness.** On the concrete `obsPair` network the fixed `BM1` keeps
its input height `0`. -/
theorem c5_fixed_points_never_move_witness :
    lookupQ "BM1" adjExResult.adjusted_heights = some 0 :=
  c5_fixed_points_never_move 10 (1/1000000) true obsPair fixedBM1 [] adjExResult
    "BM1" 0 adjust_example_eval rfl

/-- **C7.** `run_linear_adjustment` raises `InsufficientObservationsError`
whenever `rows(A) ≤ cols(A)`, and `run_conditional_adjustment` raises it
whenever the condition count is at least the observation count (for
dimensionally consistent inputs); in both cases the function returns the
error outright, before any normal-equation matrix is formed or solved, so no
partial numerical result is produced. -/
theorem c7_insufficient_observations :
    (∀ (A : Mat) (L : Vec) (P : Mat) (cs : Bool),
      L.length = A.length → isShape P A.length A.length → A.length ≤ ncols A →
      run_linear_adjustment A L P cs =
        .error (.insufficientObservations "Insufficient observations")) ∧
    (∀ (B : Mat) (w : Vec) (P : Mat) (cs : Bool),
      w.length = B.length → isShape P (ncols B) (ncols B) → ncols B ≤ B.length →
      run_conditional_adjustment B w P cs =
        .error (.insufficientObservations "Insufficient observations: under-determined")) := by
  constructor
  · intro A L P cs hL hP hdof
    simp only [run_linear_adjustment]
    rw [if_neg (not_not_intro hL), if_neg (not_not_intro hP), if_pos hdof]
  · intro B w P cs hw hP hdof
    simp only [run_conditional_adjustment]
    rw [if_neg (not_not_intro hw), if_neg (not_not_intro hP), if_pos hdof]

/-- **C7 witness.** One observation, one unknown (`1 ≤ 1`), and one
condition on one observation (`1 ≤ 1`). -/
theorem c7_insufficient_observations_witness :
    run_linear_adjustment [[1]] [0] [[1]] true =
      .error (.insufficientObservations "Insufficient observations") ∧
    run_conditional_adjustment [[1]] [0] [[1]] true =
      .error (.insufficientObservations "Insufficient observations: under-determined") :=
  ⟨c7_insufficient_observations.1 [[1]] [0] [[1]] true rfl (by decide) (by decide),
   c7_insufficient_observations.2 [[1]] [0] [[1]] true rfl (by decide) (by decide)⟩

/-- **C1.** On the `obsPair` network (2 observations, 1 unknown, 1 degree of
freedom, invertible `N = [[2]]`) `adjust` returns `mse_heights = 0` for the
unknown even though `sigma_0` is positive: the source line
`Qxx = np.linalg.inv(N)` inside `adjust` references the undefined name `N`,
the `NameError` is swallowed by the bare `except:`, and the zero fallback is
used.  The last conjunct shows the value the claim prescribes, as computed
by `run_linear_adjustment` on the final iteration's system: the squared
standard error of the unknown is `1/4` (i.e. `sigma_0·√Qxx = 0.5 m`), not
`0`. -/
theorem c1_mse_heights_zero_bug :
    adjust 10 (1/1000000) true obsPair fixedBM1 [] = .ok adjExResult ∧
    adjExResult.mse_heights = [("X", 0)] ∧
    0 < adjExResult.mse_unit_weight_sq ∧
    (run_linear_adjustment [[1], [1]] [-(1/2), 1/2] [[1, 0], [0, 1]] true).toOption.map
      (fun res => res.std_errors_sq) = some (some [1/4]) := by
  refine ⟨adjust_example_eval, rfl, by norm_num [adjExResult], ?_⟩
  rw [adjEx_run2]
  rfl

end Geo
